import Mathlib

/-!
Verification of the Spark/Lelantus core: the Schnorr proof verifier
(`src/liblelantus/schnorr_verifier.cpp`), the Spark ledger state and its
mempool overlay (`src/spark/state.h`), and the mint-metadata serialization
layout (`src/spark/primitives.h`).

The elliptic-curve library (GroupElement, Scalar, the SHA-256 challenge
generator) is external to the repository; following the specification it is
modelled as a cyclic group of prime order with explicitly representable
non-member and degenerate values, and the Fiat-Shamir transform as a
transcript accumulator with a concrete deterministic challenge function.
-/

namespace Lelantus

/-- Modelled from the spec: the order of the prime-order group used by the
external curve library.  A small prime stands in for the secp256k1 group
order; only the abstract group structure matters to the verifier logic. -/
def groupOrder : Nat := 11

/-- Modelled from the spec: `GroupElement` of the external curve library, an
opaque value type with equality, a membership (well-formedness) test and an
identity (infinity) test.  `rep` is the raw representation; representations
`≥ groupOrder` model deserialized values failing the membership test. -/
structure GroupElement where
  rep : Nat
deriving DecidableEq, Repr

/-- Modelled from the spec: `Scalar` of the external field library, with a
membership test and a zero test. -/
structure Scalar where
  rep : Nat
deriving DecidableEq, Repr

/-- Membership (well-formedness) test of a group element. -/
def GroupElement.isMember (x : GroupElement) : Bool := x.rep < groupOrder

/-- Identity test of a group element: the group identity has representation 0. -/
def GroupElement.isInfinity (x : GroupElement) : Bool := x.rep == 0

/-- Membership (well-formedness) test of a scalar. -/
def Scalar.isMember (s : Scalar) : Bool := s.rep < groupOrder

/-- Zero test of a scalar. -/
def Scalar.isZero (s : Scalar) : Bool := s.rep == 0

/-- Group addition (the `+` of the C++ `GroupElement`). -/
def GroupElement.add (x y : GroupElement) : GroupElement :=
  ⟨(x.rep + y.rep) % groupOrder⟩

/-- Scalar multiplication (the `*` of the C++ `GroupElement` by a `Scalar`). -/
def GroupElement.smul (x : GroupElement) (c : Scalar) : GroupElement :=
  ⟨(x.rep * c.rep) % groupOrder⟩

/-- One absorbed transcript entry of the challenge generator: either an opaque
byte string or a group element. -/
inductive TranscriptItem where
  | bytes : List Nat → TranscriptItem
  | ge : GroupElement → TranscriptItem
deriving DecidableEq, Repr

/-- Modelled from the spec: the abstract Fiat-Shamir challenge generator
(`ChallengeGenerator` / `ChallengeGeneratorSha256`, external to the
repository): it accumulates opaque byte strings and group elements into a
transcript and derives a deterministic scalar challenge from it. -/
structure ChallengeGenerator where
  transcript : List TranscriptItem
deriving DecidableEq, Repr

/-- A freshly constructed default challenge generator (empty transcript);
models `new ChallengeGeneratorSha256()`. -/
def ChallengeGenerator.fresh : ChallengeGenerator := ⟨[]⟩

/-- `add(std::vector<unsigned char>)`: absorb a byte string. -/
def ChallengeGenerator.addBytes (g : ChallengeGenerator) (bs : List Nat) :
    ChallengeGenerator :=
  ⟨g.transcript ++ [TranscriptItem.bytes bs]⟩

/-- `add(std::vector<GroupElement>)`: absorb each group element in order. -/
def ChallengeGenerator.addGroupElements (g : ChallengeGenerator)
    (es : List GroupElement) : ChallengeGenerator :=
  ⟨g.transcript ++ es.map TranscriptItem.ge⟩

/-- Injection of a transcript item into a number, separating the two
constructors; part of the modelled deterministic challenge function. -/
def hashItem : TranscriptItem → Nat
  | .bytes bs => 2 * bs.foldl (fun acc b => acc * 257 + (b + 1)) 1
  | .ge x => 2 * x.rep + 1

/-- Modelled from the spec: `get_challenge` derives a deterministic scalar
challenge from the accumulated transcript (the SHA-256 hash of the external
generator is modelled by a concrete deterministic mixing function). -/
def ChallengeGenerator.get_challenge (g : ChallengeGenerator) : Scalar :=
  ⟨(g.transcript.foldl (fun acc it => acc * 1000003 + hashItem it) 0) % groupOrder⟩

/-- The proof tuple consumed by the Schnorr verifier:
`{u : GroupElement, P1 : Scalar, T1 : Scalar}`. -/
structure SchnorrProof where
  u : GroupElement
  P1 : Scalar
  T1 : Scalar
deriving DecidableEq, Repr

/-- The domain-separation label `"SCHNORR_PROOF"` as its byte values. -/
def schnorrProofLabel : List Nat := "SCHNORR_PROOF".toList.map Char.toNat

/-- `SchnorrVerifier`: the two public generators fixed at construction and
the `withFixes` protocol-mode flag. -/
structure SchnorrVerifier where
  g : GroupElement
  h : GroupElement
  withFixes : Bool
deriving DecidableEq, Repr

/-- `SchnorrVerifier::verify` (schnorr_verifier.cpp lines 10-46).  The
`unique_ptr<ChallengeGenerator>&` in-out parameter is modelled by taking the
generator state and returning the state the caller's handle holds after the
call: in legacy mode (`withFixes = false`) the handle is reset to a fresh
default generator fed only `{u}`; in fixed mode the label and `{u, y, a, b}`
are appended to the caller's generator. -/
def SchnorrVerifier.verify (V : SchnorrVerifier) (y a b : GroupElement)
    (proof : SchnorrProof) (challengeGenerator : ChallengeGenerator) :
    Bool × ChallengeGenerator :=
  let u := proof.u
  let (cg1, group_elements) :=
    if V.withFixes then
      (challengeGenerator.addBytes schnorrProofLabel, [u, y, a, b])
    else
      (ChallengeGenerator.fresh, [u])
  let cg2 := cg1.addGroupElements group_elements
  let c := cg2.get_challenge
  let P1 := proof.P1
  let T1 := proof.T1
  if !(u.isMember && y.isMember && P1.isMember && T1.isMember) ||
      u.isInfinity || y.isInfinity || P1.isZero || T1.isZero then
    (false, cg2)
  else
    let right := ((y.smul c).add (V.g.smul P1)).add (V.h.smul T1)
    (u == right, cg2)

/-- The transcript state held by the caller's generator handle after
`verify`; spelled out mode by mode for use in the frame-effect theorems. -/
def SchnorrVerifier.transcriptAfter (V : SchnorrVerifier)
    (y a b : GroupElement) (proof : SchnorrProof)
    (challengeGenerator : ChallengeGenerator) : ChallengeGenerator :=
  if V.withFixes then
    (challengeGenerator.addBytes schnorrProofLabel).addGroupElements
      [proof.u, y, a, b]
  else
    ChallengeGenerator.fresh.addGroupElements [proof.u]

/-- The challenge scalar `c` derived inside `verify`. -/
def SchnorrVerifier.deriveChallenge (V : SchnorrVerifier)
    (y a b : GroupElement) (proof : SchnorrProof)
    (challengeGenerator : ChallengeGenerator) : Scalar :=
  (V.transcriptAfter y a b proof challengeGenerator).get_challenge

/-- The validity gate of `verify` (schnorr_verifier.cpp lines 36-38), as the
condition for proceeding: all of `u`, `y`, `P1`, `T1` pass their membership
tests, `u` and `y` are not the identity, and `P1`, `T1` are not zero. -/
def validityGate (u y : GroupElement) (P1 T1 : Scalar) : Bool :=
  !(!(u.isMember && y.isMember && P1.isMember && T1.isMember) ||
      u.isInfinity || y.isInfinity || P1.isZero || T1.isZero)

/-- The right-hand side `y·c + g·P1 + h·T1` of the Schnorr relation checked
by `verify`, at the challenge `verify` derives. -/
def SchnorrVerifier.rightSide (V : SchnorrVerifier) (y a b : GroupElement)
    (proof : SchnorrProof) (challengeGenerator : ChallengeGenerator) :
    GroupElement :=
  ((y.smul (V.deriveChallenge y a b proof challengeGenerator)).add
      (V.g.smul proof.P1)).add (V.h.smul proof.T1)

end Lelantus

namespace Spark

/-- Modelled from the spec: `spark::Coin`, an opaque cryptographic
commitment value type with structural equality over its public
representation (the coin class itself lives in the external libspark). -/
structure Coin where
  rep : Nat
deriving DecidableEq, Repr

/-- `CSparkMempoolState` (state.h lines 60-89): the mempool overlay holding
the set of mints currently in the mempool and the map from linking tag to
the hash of the originating transaction.  `uint256` transaction hashes are
modelled as naturals; the maps are association lists.  The member-function
bodies live in state.cpp, which is not part of the sources; they are
modelled from the spec (section 4.3). -/
structure CSparkMempoolState where
  mempoolMints : List Coin
  mempoolLTags : List (Lelantus.GroupElement × Nat)
deriving DecidableEq, Repr

/-- `CSparkMempoolState::HasLTag`: pure lookup of a linking tag in the
mempool map. -/
def CSparkMempoolState.HasLTag (m : CSparkMempoolState)
    (lTag : Lelantus.GroupElement) : Bool :=
  m.mempoolLTags.any (fun p => p.1 == lTag)

/-- Modelled from the spec (section 4.3): `CSparkMempoolState::AddSpendToMempool`
fails (`false`, no mutation) if the tag is already present, succeeds and
inserts otherwise. -/
def CSparkMempoolState.AddSpendToMempool (m : CSparkMempoolState)
    (lTag : Lelantus.GroupElement) (txHash : Nat) :
    Bool × CSparkMempoolState :=
  if m.HasLTag lTag then (false, m)
  else (true, { m with mempoolLTags := (lTag, txHash) :: m.mempoolLTags })

/-- Modelled from the spec (section 4.3): `CSparkMempoolState::RemoveSpendFromMempool`,
idempotent removal of a linking tag. -/
def CSparkMempoolState.RemoveSpendFromMempool (m : CSparkMempoolState)
    (lTag : Lelantus.GroupElement) : CSparkMempoolState :=
  { m with mempoolLTags := m.mempoolLTags.filter (fun p => !(p.1 == lTag)) }

/-- `CSparkState` (state.h lines 94-185) restricted to the linking-tag
ledger relevant to the double-spend claims: the committed map `usedLTags`
from linking tag to coin group id, and the owned mempool overlay (the spec,
section 3, makes the overlay a logical component of the committed state).
The mint/group bookkeeping fields play no part in the linking-tag claims
and are omitted.  The member-function bodies live in state.cpp, which is
not part of the sources; they are modelled from the spec (section 4.4). -/
structure CSparkState where
  usedLTags : List (Lelantus.GroupElement × Int)
  mempoolState : CSparkMempoolState
deriving DecidableEq, Repr

/-- The freshly constructed (or `Reset`) state: both layers empty. -/
def CSparkState.init : CSparkState := ⟨[], ⟨[], []⟩⟩

/-- `CSparkState::IsUsedLTag`: was the linking tag spent in committed state. -/
def CSparkState.IsUsedLTag (st : CSparkState)
    (lTag : Lelantus.GroupElement) : Bool :=
  st.usedLTags.any (fun p => p.1 == lTag)

/-- `CSparkState::CanAddSpendToMempool`: combined check, false if the tag
exists in committed `usedLTags` or in the mempool linking-tag map. -/
def CSparkState.CanAddSpendToMempool (st : CSparkState)
    (lTag : Lelantus.GroupElement) : Bool :=
  !(st.IsUsedLTag lTag || st.mempoolState.HasLTag lTag)

/-- Modelled from the spec (sections 3, 4.4, 8): `CSparkState::AddSpend`
inserts the tag into the committed layer; the promotion removes the
mempool entry atomically with the committed insert, and a second attempt to
add an already-present tag fails without mutating state. -/
def CSparkState.AddSpend (st : CSparkState)
    (lTag : Lelantus.GroupElement) (coinGroupId : Int) : CSparkState :=
  if st.IsUsedLTag lTag then st
  else
    { st with
      usedLTags := (lTag, coinGroupId) :: st.usedLTags
      mempoolState := st.mempoolState.RemoveSpendFromMempool lTag }

/-- Modelled from the spec (sections 4.4, 8): `CSparkState::AddSpendToMempool`
over a list of tags is all-or-nothing: every tag must pass
`CanAddSpendToMempool`; if any fails, no tag is inserted and the call
returns false; otherwise all are inserted and it returns true. -/
def CSparkState.AddSpendToMempool (st : CSparkState)
    (lTags : List Lelantus.GroupElement) (txHash : Nat) :
    Bool × CSparkState :=
  if lTags.all st.CanAddSpendToMempool then
    (true,
      { st with
        mempoolState :=
          { st.mempoolState with
            mempoolLTags :=
              lTags.map (fun t => (t, txHash)) ++
                st.mempoolState.mempoolLTags } })
  else (false, st)

/-- The states reachable from the initial state by any sequence of
`AddSpend` and `AddSpendToMempool` operations. -/
inductive CSparkState.Reachable : CSparkState → Prop where
  | init : CSparkState.Reachable CSparkState.init
  | addSpend (st : CSparkState) (lTag : Lelantus.GroupElement)
      (coinGroupId : Int) : CSparkState.Reachable st →
      CSparkState.Reachable (st.AddSpend lTag coinGroupId)
  | addSpendToMempool (st : CSparkState)
      (lTags : List Lelantus.GroupElement) (txHash : Nat) :
      CSparkState.Reachable st →
      CSparkState.Reachable (st.AddSpendToMempool lTags txHash).2

/-- `CSparkMintMeta` (primitives.h lines 8-40): the persisted mint
metadata.  `uint256` is modelled as a natural, byte vectors as lists of
naturals, the nonce as a scalar of the external field library.  The mutable
`nonceHash` member is a lazily computed cache that is not serialized and
carries no observable state, so it is not part of the value. -/
structure CSparkMintMeta where
  nHeight : Int
  nId : Int
  isUsed : Bool
  txid : Nat
  i : Nat
  d : List Nat
  v : Nat
  k : Lelantus.Scalar
  memo : String
  serial_context : List Nat
deriving DecidableEq, Repr

/-- One primitive field written to a serialization stream by `READWRITE`;
the byte-level codec of each primitive type lives in the external
serialize.h, so the stream is modelled at the granularity of typed fields. -/
inductive SerItem where
  | int : Int → SerItem
  | bool : Bool → SerItem
  | uint256 : Nat → SerItem
  | uint64 : Nat → SerItem
  | bytes : List Nat → SerItem
  | scalar : Lelantus.Scalar → SerItem
  | str : String → SerItem
deriving DecidableEq, Repr

/-- `CSparkMintMeta::SerializationOp` in write direction (primitives.h lines
26-39): the ten `READWRITE` calls in source order. -/
def CSparkMintMeta.serialize (m : CSparkMintMeta) : List SerItem :=
  [SerItem.int m.nHeight, SerItem.int m.nId, SerItem.bool m.isUsed,
   SerItem.uint256 m.txid, SerItem.uint64 m.i, SerItem.bytes m.d,
   SerItem.uint64 m.v, SerItem.scalar m.k, SerItem.str m.memo,
   SerItem.bytes m.serial_context]

/-- `CSparkMintMeta::SerializationOp` in read direction: the same ten
`READWRITE` calls consume the stream in the same order; a stream not
offering the expected fields in the expected order fails. -/
def CSparkMintMeta.deserialize :
    List SerItem → Option (CSparkMintMeta × List SerItem)
  | SerItem.int nHeight :: SerItem.int nId :: SerItem.bool isUsed ::
      SerItem.uint256 txid :: SerItem.uint64 i :: SerItem.bytes d ::
      SerItem.uint64 v :: SerItem.scalar k :: SerItem.str memo ::
      SerItem.bytes serial_context :: rest =>
    some (⟨nHeight, nId, isUsed, txid, i, d, v, k, memo, serial_context⟩, rest)
  | _ => none

end Spark

namespace Lelantus

/-- Characterization of `verify`: the returned flag is the conjunction of the
validity gate and the Schnorr equality at the derived challenge, and the
returned generator state is the mode-dependent transcript. -/
theorem SchnorrVerifier.verify_eq_pair (V : SchnorrVerifier)
    (y a b : GroupElement) (proof : SchnorrProof) (cg : ChallengeGenerator) :
    V.verify y a b proof cg =
      (validityGate proof.u y proof.P1 proof.T1 &&
        (proof.u == V.rightSide y a b proof cg),
       V.transcriptAfter y a b proof cg) := by
  simp only [SchnorrVerifier.verify, SchnorrVerifier.rightSide,
    SchnorrVerifier.deriveChallenge, SchnorrVerifier.transcriptAfter,
    validityGate]
  cases hw : V.withFixes <;>
    cases hc : (!(proof.u.isMember && y.isMember && proof.P1.isMember &&
        proof.T1.isMember) || proof.u.isInfinity || y.isInfinity ||
        proof.P1.isZero || proof.T1.isZero) <;>
    simp [hc]

/-- Claim C1, counterexample: the claim asserts that a failing membership
test on any of the public elements `u, y, a, b` forces a false return, but
`verify` never tests membership of `a` or `b`: here `a` fails the
membership test and `verify` nevertheless returns true. -/
theorem lelantus_C1_gate_counterexample :
    GroupElement.isMember ⟨11⟩ = false ∧
      (SchnorrVerifier.verify ⟨⟨1⟩, ⟨1⟩, true⟩ ⟨2⟩ ⟨11⟩ ⟨4⟩ ⟨⟨5⟩, ⟨3⟩, ⟨4⟩⟩
          ChallengeGenerator.fresh).1 = true := by
  constructor
  · decide
  · rfl

/-- Claim C1, amended: `verify` returns false unless `u` and `y` are
well-formed group members and not the identity and `P1`, `T1` are
well-formed field members and not zero; membership of `a` and `b` is not
checked by the gate. -/
theorem lelantus_C1_gate_amended (V : SchnorrVerifier)
    (y a b : GroupElement) (proof : SchnorrProof) (cg : ChallengeGenerator)
    (h : validityGate proof.u y proof.P1 proof.T1 = false) :
    (V.verify y a b proof cg).1 = false := by
  rw [SchnorrVerifier.verify_eq_pair, h]
  rfl

/-- Witness for the amended C1 at a degenerate input (`u` is the group
identity, so the gate fails and the verifier rejects). -/
theorem lelantus_C1_gate_amended_witness :
    validityGate ⟨0⟩ ⟨2⟩ ⟨3⟩ ⟨4⟩ = false ∧
      (SchnorrVerifier.verify ⟨⟨1⟩, ⟨1⟩, true⟩ ⟨2⟩ ⟨3⟩ ⟨4⟩ ⟨⟨0⟩, ⟨3⟩, ⟨4⟩⟩
          ChallengeGenerator.fresh).1 = false :=
  ⟨by decide,
   lelantus_C1_gate_amended ⟨⟨1⟩, ⟨1⟩, true⟩ ⟨2⟩ ⟨3⟩ ⟨4⟩ ⟨⟨0⟩, ⟨3⟩, ⟨4⟩⟩
     ChallengeGenerator.fresh (by decide)⟩

/-- Claim C2: when the inputs pass the validity gate, `verify` returns true
iff `u = y·c + g·P1 + h·T1` where `c` is the challenge derived from the
mode-dependent Fiat-Shamir transcript and `g`, `h` are the generators fixed
at construction. -/
theorem lelantus_C2_accept_iff (V : SchnorrVerifier)
    (y a b : GroupElement) (proof : SchnorrProof) (cg : ChallengeGenerator)
    (h : validityGate proof.u y proof.P1 proof.T1 = true) :
    ((V.verify y a b proof cg).1 = true ↔
      proof.u = V.rightSide y a b proof cg) := by
  rw [SchnorrVerifier.verify_eq_pair, h]
  simp

/-- Witness for C2 at a concrete gate-passing fixed-mode input whose proof
satisfies the Schnorr relation. -/
theorem lelantus_C2_accept_iff_witness :
    validityGate ⟨5⟩ ⟨2⟩ ⟨1⟩ ⟨2⟩ = true ∧
      ((SchnorrVerifier.verify ⟨⟨1⟩, ⟨1⟩, true⟩ ⟨2⟩ ⟨3⟩ ⟨4⟩ ⟨⟨5⟩, ⟨1⟩, ⟨2⟩⟩
          ChallengeGenerator.fresh).1 = true ↔
        (⟨5⟩ : GroupElement) =
          SchnorrVerifier.rightSide ⟨⟨1⟩, ⟨1⟩, true⟩ ⟨2⟩ ⟨3⟩ ⟨4⟩
            ⟨⟨5⟩, ⟨1⟩, ⟨2⟩⟩ ChallengeGenerator.fresh) :=
  ⟨by decide,
   lelantus_C2_accept_iff ⟨⟨1⟩, ⟨1⟩, true⟩ ⟨2⟩ ⟨3⟩ ⟨4⟩ ⟨⟨5⟩, ⟨1⟩, ⟨2⟩⟩
     ChallengeGenerator.fresh (by decide)⟩

/-- Claim C3: the generator state after `verify` is built in exactly one of
two ways selected by `withFixes`: legacy mode discards the caller's
generator for a fresh default one fed only `{u}`; fixed mode keeps the
caller's generator and appends the label "SCHNORR_PROOF" and `{u, y, a, b}`. -/
theorem lelantus_C3_transcript_modes (V : SchnorrVerifier)
    (y a b : GroupElement) (proof : SchnorrProof) (cg : ChallengeGenerator) :
    (V.verify y a b proof cg).2 =
      if V.withFixes then
        (cg.addBytes schnorrProofLabel).addGroupElements [proof.u, y, a, b]
      else
        ChallengeGenerator.fresh.addGroupElements [proof.u] := by
  rw [SchnorrVerifier.verify_eq_pair]
  rfl

/-- Claim C6: a concrete fixture on which the two verifier modes derive
different challenges, and the same statement/proof pair is accepted in
fixed mode and rejected in legacy mode. -/
theorem lelantus_C6_mode_divergence :
    SchnorrVerifier.deriveChallenge ⟨⟨1⟩, ⟨1⟩, true⟩ ⟨2⟩ ⟨3⟩ ⟨4⟩
        ⟨⟨5⟩, ⟨1⟩, ⟨2⟩⟩ ChallengeGenerator.fresh ≠
      SchnorrVerifier.deriveChallenge ⟨⟨1⟩, ⟨1⟩, false⟩ ⟨2⟩ ⟨3⟩ ⟨4⟩
        ⟨⟨5⟩, ⟨1⟩, ⟨2⟩⟩ ChallengeGenerator.fresh ∧
    (SchnorrVerifier.verify ⟨⟨1⟩, ⟨1⟩, true⟩ ⟨2⟩ ⟨3⟩ ⟨4⟩ ⟨⟨5⟩, ⟨1⟩, ⟨2⟩⟩
        ChallengeGenerator.fresh).1 = true ∧
    (SchnorrVerifier.verify ⟨⟨1⟩, ⟨1⟩, false⟩ ⟨2⟩ ⟨3⟩ ⟨4⟩ ⟨⟨5⟩, ⟨1⟩, ⟨2⟩⟩
        ChallengeGenerator.fresh).1 = false := by
  refine ⟨by decide, rfl, rfl⟩

/-- Claim C7: `verify` is a total boolean function: for every input —
malformed or degenerate elements and failed equalities included — it
returns the ordinary boolean given by the gate and the Schnorr relation,
never a fatal error. -/
theorem lelantus_C7_total_boolean (V : SchnorrVerifier)
    (y a b : GroupElement) (proof : SchnorrProof) (cg : ChallengeGenerator) :
    (V.verify y a b proof cg).1 =
      (validityGate proof.u y proof.P1 proof.T1 &&
        (proof.u == V.rightSide y a b proof cg)) := by
  rw [SchnorrVerifier.verify_eq_pair]

/-- Claim C9: in legacy mode the derived challenge depends only on
`proof.u`: any two calls agreeing on `u` derive the same challenge,
whatever `y`, `a`, `b`, the generators and the caller-supplied generator
states are. -/
theorem lelantus_C9_legacy_challenge_only_u (V₁ V₂ : SchnorrVerifier)
    (y₁ a₁ b₁ y₂ a₂ b₂ : GroupElement) (p₁ p₂ : SchnorrProof)
    (cg₁ cg₂ : ChallengeGenerator)
    (h₁ : V₁.withFixes = false) (h₂ : V₂.withFixes = false)
    (hu : p₁.u = p₂.u) :
    V₁.deriveChallenge y₁ a₁ b₁ p₁ cg₁ =
      V₂.deriveChallenge y₂ a₂ b₂ p₂ cg₂ := by
  simp [SchnorrVerifier.deriveChallenge, SchnorrVerifier.transcriptAfter,
    h₁, h₂, hu]

/-- Witness for C9: two legacy-mode calls sharing only `u` (different
statements, generators and transcript states) derive the same challenge. -/
theorem lelantus_C9_legacy_challenge_only_u_witness :
    (⟨⟨1⟩, ⟨2⟩, false⟩ : SchnorrVerifier).withFixes = false ∧
    (⟨⟨3⟩, ⟨4⟩, false⟩ : SchnorrVerifier).withFixes = false ∧
    (⟨⟨5⟩, ⟨1⟩, ⟨2⟩⟩ : SchnorrProof).u = (⟨⟨5⟩, ⟨7⟩, ⟨9⟩⟩ : SchnorrProof).u ∧
    SchnorrVerifier.deriveChallenge ⟨⟨1⟩, ⟨2⟩, false⟩ ⟨2⟩ ⟨3⟩ ⟨4⟩
        ⟨⟨5⟩, ⟨1⟩, ⟨2⟩⟩ ChallengeGenerator.fresh =
      SchnorrVerifier.deriveChallenge ⟨⟨3⟩, ⟨4⟩, false⟩ ⟨6⟩ ⟨7⟩ ⟨8⟩
        ⟨⟨5⟩, ⟨7⟩, ⟨9⟩⟩ ⟨[TranscriptItem.bytes [1, 2, 3]]⟩ :=
  ⟨rfl, rfl, rfl,
   lelantus_C9_legacy_challenge_only_u ⟨⟨1⟩, ⟨2⟩, false⟩ ⟨⟨3⟩, ⟨4⟩, false⟩
     ⟨2⟩ ⟨3⟩ ⟨4⟩ ⟨6⟩ ⟨7⟩ ⟨8⟩ ⟨⟨5⟩, ⟨1⟩, ⟨2⟩⟩ ⟨⟨5⟩, ⟨7⟩, ⟨9⟩⟩
     ChallengeGenerator.fresh ⟨[TranscriptItem.bytes [1, 2, 3]]⟩
     rfl rfl rfl⟩

/-- Claim C10: the challenge generator is mutated before the validity gate
is applied: even on a rejecting call the caller's handle already holds the
mode-dependent transcript, and in fixed mode that state is never the state
passed in (the label and four elements were appended). -/
theorem lelantus_C10_mutation_before_gate (V : SchnorrVerifier)
    (y a b : GroupElement) (proof : SchnorrProof) (cg : ChallengeGenerator)
    (h : (V.verify y a b proof cg).1 = false) :
    (V.verify y a b proof cg).2 = V.transcriptAfter y a b proof cg ∧
      (V.withFixes = true → (V.verify y a b proof cg).2 ≠ cg) := by
  constructor
  · rw [SchnorrVerifier.verify_eq_pair]
  · intro hw heq
    rw [SchnorrVerifier.verify_eq_pair] at heq
    have hlen := congrArg (fun s => s.transcript.length) heq
    simp [SchnorrVerifier.transcriptAfter, hw,
      ChallengeGenerator.addBytes, ChallengeGenerator.addGroupElements]
      at hlen

/-- Witness for C10: a rejecting fixed-mode call (`u` is the identity)
whose generator handle nevertheless holds the appended transcript. -/
theorem lelantus_C10_mutation_before_gate_witness :
    (SchnorrVerifier.verify ⟨⟨1⟩, ⟨1⟩, true⟩ ⟨2⟩ ⟨3⟩ ⟨4⟩ ⟨⟨0⟩, ⟨3⟩, ⟨4⟩⟩
        ChallengeGenerator.fresh).1 = false ∧
    ((SchnorrVerifier.verify ⟨⟨1⟩, ⟨1⟩, true⟩ ⟨2⟩ ⟨3⟩ ⟨4⟩ ⟨⟨0⟩, ⟨3⟩, ⟨4⟩⟩
        ChallengeGenerator.fresh).2 =
      SchnorrVerifier.transcriptAfter ⟨⟨1⟩, ⟨1⟩, true⟩ ⟨2⟩ ⟨3⟩ ⟨4⟩
        ⟨⟨0⟩, ⟨3⟩, ⟨4⟩⟩ ChallengeGenerator.fresh ∧
      ((⟨⟨1⟩, ⟨1⟩, true⟩ : SchnorrVerifier).withFixes = true →
        (SchnorrVerifier.verify ⟨⟨1⟩, ⟨1⟩, true⟩ ⟨2⟩ ⟨3⟩ ⟨4⟩
            ⟨⟨0⟩, ⟨3⟩, ⟨4⟩⟩ ChallengeGenerator.fresh).2 ≠
          ChallengeGenerator.fresh)) :=
  ⟨rfl,
   lelantus_C10_mutation_before_gate ⟨⟨1⟩, ⟨1⟩, true⟩ ⟨2⟩ ⟨3⟩ ⟨4⟩
     ⟨⟨0⟩, ⟨3⟩, ⟨4⟩⟩ ChallengeGenerator.fresh rfl⟩

end Lelantus

namespace Spark

/-- Unfolding of the mempool linking-tag lookup. -/
theorem CSparkMempoolState.hasLTag_iff (m : CSparkMempoolState)
    (t : Lelantus.GroupElement) :
    m.HasLTag t = true ↔ ∃ x ∈ m.mempoolLTags, x.1 = t := by
  simp [CSparkMempoolState.HasLTag, List.any_eq_true]

/-- Unfolding of the committed linking-tag lookup. -/
theorem CSparkState.isUsedLTag_iff (st : CSparkState)
    (t : Lelantus.GroupElement) :
    st.IsUsedLTag t = true ↔ ∃ x ∈ st.usedLTags, x.1 = t := by
  simp [CSparkState.IsUsedLTag, List.any_eq_true]

/-- Layer disjointness is an inductive invariant of the reachable states:
a committed linking tag is never simultaneously a mempool linking tag. -/
theorem CSparkState.reachable_disjoint (st : CSparkState)
    (h : st.Reachable) (t : Lelantus.GroupElement) :
    st.IsUsedLTag t = true → st.mempoolState.HasLTag t = false := by
  induction h with
  | init =>
    intro hu
    simp [CSparkState.init, CSparkState.IsUsedLTag] at hu
  | addSpend st lTag coinGroupId hr ih =>
    by_cases hused : st.IsUsedLTag lTag = true
    · simpa [CSparkState.AddSpend, hused] using ih
    · intro hu
      simp only [CSparkState.AddSpend, if_neg hused] at hu ⊢
      rw [CSparkState.isUsedLTag_iff] at hu
      simp only [List.mem_cons] at hu
      rw [Bool.eq_false_iff]
      intro hmem
      rw [CSparkMempoolState.hasLTag_iff] at hmem
      obtain ⟨x, hx, hxt⟩ := hmem
      simp only [CSparkMempoolState.RemoveSpendFromMempool, List.mem_filter,
        Bool.not_eq_eq_eq_not, Bool.not_true, beq_eq_false_iff_ne] at hx
      obtain ⟨hxold, hxne⟩ := hx
      obtain ⟨p, hp, hpt⟩ := hu
      rcases hp with hp | hpold
      · exact hxne (by rw [hxt, ← hpt, hp])
      · have hut : st.IsUsedLTag t = true :=
          (CSparkState.isUsedLTag_iff st t).2 ⟨_, hpold, hpt⟩
        have hm := ih hut
        rw [Bool.eq_false_iff] at hm
        exact hm ((CSparkMempoolState.hasLTag_iff _ t).2 ⟨x, hxold, hxt⟩)
  | addSpendToMempool st lTags txHash hr ih =>
    by_cases hall : lTags.all st.CanAddSpendToMempool = true
    · intro hu
      simp only [CSparkState.AddSpendToMempool, if_pos hall] at hu ⊢
      have hu' : st.IsUsedLTag t = true := hu
      rw [Bool.eq_false_iff]
      intro hmem
      rw [CSparkMempoolState.hasLTag_iff] at hmem
      obtain ⟨x, hx, hxt⟩ := hmem
      simp only [List.mem_append, List.mem_map] at hx
      rcases hx with ⟨s, hs, hsx⟩ | hxold
      · have hcan := (List.all_eq_true.1 hall) s hs
        simp only [CSparkState.CanAddSpendToMempool, Bool.not_eq_eq_eq_not,
          Bool.not_true, Bool.or_eq_false_iff] at hcan
        have hst : s = t := by rw [← hxt, ← hsx]
        rw [hst] at hcan
        rw [hcan.1] at hu'
        exact Bool.false_ne_true hu'
      · have hm := ih hu'
        rw [Bool.eq_false_iff] at hm
        exact hm ((CSparkMempoolState.hasLTag_iff _ t).2 ⟨x, hxold, hxt⟩)
    · intro hu
      have hst : (st.AddSpendToMempool lTags txHash).2 = st := by
        simp only [CSparkState.AddSpendToMempool, if_neg hall]
      rw [hst] at hu ⊢
      exact ih hu

/-- Claim C4: in every reachable state, no linking tag is a key of both the
committed `usedLTags` map and the mempool linking-tag map, and a second
attempt to add an already-present tag to either layer fails without
mutating state. -/
theorem spark_C4_ltag_uniqueness (st : CSparkState)
    (h : st.Reachable) (lTag : Lelantus.GroupElement)
    (coinGroupId : Int) (txHash : Nat) :
    (st.IsUsedLTag lTag = true → st.mempoolState.HasLTag lTag = false) ∧
    (st.IsUsedLTag lTag = true → st.AddSpend lTag coinGroupId = st) ∧
    (st.IsUsedLTag lTag = true ∨ st.mempoolState.HasLTag lTag = true →
      st.AddSpendToMempool [lTag] txHash = (false, st)) := by
  refine ⟨CSparkState.reachable_disjoint st h lTag, ?_, ?_⟩
  · intro hused
    simp [CSparkState.AddSpend, hused]
  · intro hpresent
    have hcan : st.CanAddSpendToMempool lTag = false := by
      simp only [CSparkState.CanAddSpendToMempool, Bool.not_eq_eq_eq_not,
        Bool.not_false, Bool.or_eq_true_iff]
      rcases hpresent with hp | hp
      · exact Or.inl hp
      · exact Or.inr hp
    simp [CSparkState.AddSpendToMempool, hcan]

/-- Witness for C4 at the reachable state obtained by committing one spend,
queried at the committed tag. -/
theorem spark_C4_ltag_uniqueness_witness :
    ((CSparkState.init.AddSpend ⟨1⟩ 0).IsUsedLTag ⟨1⟩ = true →
      (CSparkState.init.AddSpend ⟨1⟩ 0).mempoolState.HasLTag ⟨1⟩ = false) ∧
    ((CSparkState.init.AddSpend ⟨1⟩ 0).IsUsedLTag ⟨1⟩ = true →
      (CSparkState.init.AddSpend ⟨1⟩ 0).AddSpend ⟨1⟩ 5 =
        CSparkState.init.AddSpend ⟨1⟩ 0) ∧
    ((CSparkState.init.AddSpend ⟨1⟩ 0).IsUsedLTag ⟨1⟩ = true ∨
        (CSparkState.init.AddSpend ⟨1⟩ 0).mempoolState.HasLTag ⟨1⟩ = true →
      (CSparkState.init.AddSpend ⟨1⟩ 0).AddSpendToMempool [⟨1⟩] 7 =
        (false, CSparkState.init.AddSpend ⟨1⟩ 0)) :=
  spark_C4_ltag_uniqueness (CSparkState.init.AddSpend ⟨1⟩ 0)
    (CSparkState.Reachable.addSpend CSparkState.init ⟨1⟩ 0
      CSparkState.Reachable.init) ⟨1⟩ 5 7

/-- Claim C5: `AddSpendToMempool` over a tag list is all-or-nothing: if any
tag fails `CanAddSpendToMempool` the call returns false and the state — in
particular the mempool map — is untouched; otherwise it returns true and
every tag of the list is present in the mempool map afterwards. -/
theorem spark_C5_atomic_mempool_add (st : CSparkState)
    (lTags : List Lelantus.GroupElement) (txHash : Nat) :
    (lTags.all st.CanAddSpendToMempool = false →
      st.AddSpendToMempool lTags txHash = (false, st)) ∧
    (lTags.all st.CanAddSpendToMempool = true →
      (st.AddSpendToMempool lTags txHash).1 = true ∧
      lTags.all
          (fun t =>
            (st.AddSpendToMempool lTags txHash).2.mempoolState.HasLTag t) =
        true) := by
  constructor
  · intro hfail
    simp [CSparkState.AddSpendToMempool, hfail]
  · intro hall
    constructor
    · simp [CSparkState.AddSpendToMempool, hall]
    · rw [List.all_eq_true]
      intro t ht
      simp only [CSparkState.AddSpendToMempool, if_pos hall]
      rw [CSparkMempoolState.hasLTag_iff]
      exact ⟨(t, txHash), List.mem_append_left _ (List.mem_map_of_mem _ ht),
        rfl⟩

/-- Witness for C5: the spec's fixture — one fresh tag and one already
committed tag are refused together, and a pair of fresh tags is admitted
together. -/
theorem spark_C5_atomic_mempool_add_witness :
    (([⟨1⟩, ⟨2⟩] : List Lelantus.GroupElement).all
        (CSparkState.init.AddSpend ⟨2⟩ 0).CanAddSpendToMempool = false →
      (CSparkState.init.AddSpend ⟨2⟩ 0).AddSpendToMempool [⟨1⟩, ⟨2⟩] 7 =
        (false, CSparkState.init.AddSpend ⟨2⟩ 0)) ∧
    (([⟨1⟩, ⟨2⟩] : List Lelantus.GroupElement).all
        (CSparkState.init.AddSpend ⟨2⟩ 0).CanAddSpendToMempool = true →
      ((CSparkState.init.AddSpend ⟨2⟩ 0).AddSpendToMempool
          [⟨1⟩, ⟨2⟩] 7).1 = true ∧
      ([⟨1⟩, ⟨2⟩] : List Lelantus.GroupElement).all
          (fun t =>
            ((CSparkState.init.AddSpend ⟨2⟩ 0).AddSpendToMempool
                [⟨1⟩, ⟨2⟩] 7).2.mempoolState.HasLTag t) = true) :=
  spark_C5_atomic_mempool_add (CSparkState.init.AddSpend ⟨2⟩ 0)
    [⟨1⟩, ⟨2⟩] 7

/-- Claim C8: serialization of `CSparkMintMeta` writes exactly the ten
fields height, group id, used-flag, txid, diversifier, encrypted
diversifier, value, nonce, memo, serial context in exactly this order, and
deserialization reads them back in the same order, restoring all ten
fields. -/
theorem spark_C8_mintmeta_roundtrip (m : CSparkMintMeta)
    (rest : List SerItem) :
    m.serialize =
      [SerItem.int m.nHeight, SerItem.int m.nId, SerItem.bool m.isUsed,
       SerItem.uint256 m.txid, SerItem.uint64 m.i, SerItem.bytes m.d,
       SerItem.uint64 m.v, SerItem.scalar m.k, SerItem.str m.memo,
       SerItem.bytes m.serial_context] ∧
    CSparkMintMeta.deserialize (m.serialize ++ rest) = some (m, rest) :=
  ⟨rfl, rfl⟩

end Spark
